import Mathlib

/-!
Shallow embedding of the proxy-checker program (Go) and proofs about it.

The repository contains two near-duplicate variants of the same program:
`src/proxy_checker.go` (the current variant, whose loader `extractProxies`
deduplicates and whose `checkProxy` records a response time) and an unnamed
older variant `src/unnamed/part_000` (whose loader `readProxies` does not
deduplicate).  Pure pieces of both are embedded below as Lean functions;
the concurrent parts (the semaphore-bounded worker pool, the buffered result
channel, and the unsynchronized `*validCount++`) are embedded as explicit
interleaving transition systems.  Go standard-library functions used by the
program (`strings.TrimSpace`, `strings.Contains`, `net/url.Parse`,
`fmt.Sscanf "%d"`) are modelled byte-for-byte on the code paths the program
exercises, with bytes represented as `Char` (all inputs of interest are
ASCII).
-/

namespace ProxyChecker

/-- Model of Go `unicode.IsSpace` restricted to the ASCII whitespace bytes
(space, tab, newline, carriage return, vertical tab, form feed); non-ASCII
Unicode space classes are not exercised by the inputs considered. -/
def goIsSpace (c : Char) : Bool :=
  c = ' ' || c = '\t' || c = '\n' || c = '\r' || c = '\x0b' || c = '\x0c'

/-- Model of Go `strings.TrimSpace`: drop whitespace from both ends. -/
def goTrimSpace (s : String) : String :=
  ⟨((s.data.dropWhile goIsSpace).reverse.dropWhile goIsSpace).reverse⟩

/-- Model of Go `strings.Contains s sub`: `sub` occurs as a contiguous
substring of `s`, i.e. it is a prefix of some suffix of `s`. -/
def goContains (s sub : String) : Bool :=
  s.data.tails.any (fun t => sub.data.isPrefixOf t)

/-- The at-most-1024-byte prefix of a response body: the first
`min 1024 (length s)` bytes of `s`.  This is the prefix the claims speak
about; what the code actually scans is `readChunk`, a possibly shorter
prefix of it. -/
def take1024 (s : String) : String :=
  ⟨s.data.take 1024⟩

/-- The bytes scanned by `checkProxy`: the outcome `body[:n]` of the single
`resp.Body.Read(body)` call into the 1024-byte buffer
(proxy_checker.go:157-159).  Go's `io.Reader` contract only guarantees that
the call returns some `n` bytes that are the first `n` bytes of the body,
with `n` at most 1024 (the buffer size) and at most the body length; `n` may
be strictly smaller than `min 1024 (length body)` (a short read).  `readN`
is that `n`; the buffer bound is imposed by `min`, and `List.take` itself
caps `n` at the body length. -/
def readChunk (body : String) (readN : Nat) : String :=
  ⟨body.data.take (min readN 1024)⟩

/-- Model of Go `net/url.validOptionalPort`: empty, or a colon followed by
decimal digits only. -/
def validOptionalPort : List Char → Bool
  | [] => true
  | ':' :: rest => rest.all Char.isDigit
  | _ => false

/-- The suffix of `host` starting at its last colon, if any (Go
`strings.LastIndexByte(host, ':')`). -/
def lastColonSuffix : List Char → Option (List Char)
  | [] => none
  | c :: cs =>
    match lastColonSuffix cs with
    | some suf => some suf
    | none => if c = ':' then some (c :: cs) else none

/-- The part of `host` after its last right bracket, if any (Go
`strings.LastIndexByte(host, ']')`). -/
def afterLastRBracket : List Char → Option (List Char)
  | [] => none
  | c :: cs =>
    match afterLastRBracket cs with
    | some suf => some suf
    | none => if c = ']' then some cs else none

/-- Model of the port validation of Go `net/url.parseHost`: a bracketed host
needs a closing bracket and a valid optional port after it; otherwise the
suffix from the last colon, when present, must be a valid port.  The
percent-escape and zone checks of `parseHost` are not exercised by the
inputs considered and are omitted. -/
def goParseHostOk (host : List Char) : Bool :=
  match host with
  | '[' :: _ =>
    match afterLastRBracket host with
    | none => false
    | some colonPort => validOptionalPort colonPort
  | _ =>
    match lastColonSuffix host with
    | none => true
    | some colonPort => validOptionalPort colonPort

/-- Model of Go `net/url.getScheme`.  Result `none` is the "missing protocol
scheme" error; `some none` means no scheme was found (the raw string is then
parsed as a path); `some (some (scheme, rest))` is a found scheme and the
remainder after the colon. -/
def goGetScheme (acc : List Char) : List Char → Option (Option (List Char × List Char))
  | [] => some none
  | c :: cs =>
    if c.isAlpha then goGetScheme (acc ++ [c]) cs
    else if c.isDigit || c = '+' || c = '-' || c = '.' then
      if acc = [] then some none else goGetScheme (acc ++ [c]) cs
    else if c = ':' then
      if acc = [] then none else some (some (acc, cs))
    else some none

/-- Model of the success of Go `url.Parse` on the strings
`protocol ++ "://" ++ proxy` built by `checkProxy`
(proxy_checker.go:139-140): a scheme followed by `//` and an authority whose
port part must be valid.  Branches of `url.Parse` not reachable from these
inputs (userinfo, path validation, percent escapes) are omitted. -/
def goURLParseOk (raw : String) : Bool :=
  match goGetScheme [] raw.data with
  | none => false
  | some none => true
  | some (some (_, rest)) =>
    match rest with
    | '/' :: '/' :: tail =>
      goParseHostOk (tail.takeWhile (fun c => c ≠ '/' && c ≠ '?' && c ≠ '#'))
    | _ => true

/-- Consume leading decimal digits, returning the accumulated value and the
rest of the input. -/
def digitsToNat (acc : Nat) : List Char → Nat × List Char
  | [] => (acc, [])
  | c :: cs =>
    if c.isDigit then digitsToNat (acc * 10 + (c.toNat - '0'.toNat)) cs
    else (acc, c :: cs)

/-- Model of Go `fmt.Sscanf(s, "%d", &x)` (proxy_checker.go:220): skip
leading whitespace, an optional sign, then at least one decimal digit;
trailing unconsumed input is not an error for `Sscanf`.  Returns the scanned
integer, or `none` when the scan fails. -/
def sscanfD (s : String) : Option Int :=
  let cs := s.data.dropWhile goIsSpace
  let signed : Bool × List Char :=
    match cs with
    | '+' :: r => (false, r)
    | '-' :: r => (true, r)
    | _ => (false, cs)
  match signed.2 with
  | [] => none
  | c :: _ =>
    if c.isDigit then
      let v := (digitsToNat 0 signed.2).1
      some (if signed.1 then -(v : Int) else (v : Int))
    else none

/-- Split a character list at every occurrence of `sep`, keeping empty
pieces, as Go `strings.Split` does for a one-byte separator. -/
def splitOnChar (sep : Char) : List Char → List (List Char)
  | [] => [[]]
  | c :: cs =>
    let r := splitOnChar sep cs
    if c = sep then [] :: r
    else
      match r with
      | [] => [[c]]
      | h :: t => (c :: h) :: t

/-- Model of Go `strings.Split(content, "\n")` (proxy_checker.go:102). -/
def goSplitLines (content : String) : List String :=
  (splitOnChar '\n' content.data).map (fun l => ⟨l⟩)

/-- Embedding of main's thread-count resolution (proxy_checker.go:219-223):
`threads := config.Threads; if Sscanf(reply, "%d", &threads) fails, keep the
default`. -/
def resolveThreads (reply : String) (defaultThreads : Int) : Int :=
  match sscanfD reply with
  | some t => t
  | none => defaultThreads

/-- Embedding of `extractProxies` (proxy_checker.go:101-118): split the
content on newline bytes, trim each line, keep the non-empty ones, and
collect them into a Go map used as a set.  The map's unspecified iteration
order is modelled by `List.dedup`. -/
def extractProxies (content : String) : List String :=
  (((goSplitLines content).map goTrimSpace).filter (fun l => l ≠ "")).dedup

/-- Embedding of `readProxies` of the older variant (src/unnamed/part_000
lines 84-100): scan the file line by line, trim, keep non-empty lines.  No
deduplication is performed. -/
def readProxies (content : String) : List String :=
  ((goSplitLines content).map goTrimSpace).filter (fun l => l ≠ "")

/-- Embedding of `checkProxy` (proxy_checker.go:136-165).  `resp` is the
outcome of `client.Get(targetURL)` through this proxy: `none` for any
transport error (connection refused, timeout, TLS failure, DNS failure),
`some body` for a response with that body; the target URL and timeout of the
source only influence this outcome and are folded into it.  `readN` is the
byte count returned by the single `resp.Body.Read(body)` call — any value
the `io.Reader` contract allows, including a short read (see `readChunk`);
the code scans exactly `body[:n]`, ignoring the read error.  `elapsedMs` is
the measured wall-clock time in milliseconds (`time.Since` on Go's monotonic
clock, hence a natural number).  The returned value is the string sent on
the results channel (`"proxy|NNms"`), or `none` when nothing is sent; the
code increments `validCount` exactly when it sends. -/
def checkProxy (protocol proxy validString : String) (resp : Option String)
    (readN elapsedMs : Nat) : Option String :=
  if goURLParseOk (protocol ++ "://" ++ proxy) then
    match resp with
    | none => none
    | some body =>
      let responseBody := readChunk body readN
      if goContains responseBody validString then
        some (proxy ++ "|" ++ toString elapsedMs ++ "ms")
      else none
  else none

/-- The sequence of verdict strings sent on the results channel by a run over
`proxies` (proxy_checker.go:241-249): each proxy is probed independently and
contributes its send, if any.  `readN` gives each proxy's single-read byte
count. -/
def runValidLines (protocol validString : String) (proxies : List String)
    (net : String → Option String) (readN : String → Nat)
    (elapsedMs : String → Nat) : List String :=
  proxies.filterMap (fun p =>
    checkProxy protocol p validString (net p) (readN p) (elapsedMs p))

/-- The number of verdicts sent on the results channel by a run, which is
also the number of `validCount` increments executed (proxy_checker.go:162-163). -/
def runValidCount (protocol validString : String) (proxies : List String)
    (net : String → Option String) (readN : String → Nat)
    (elapsedMs : String → Nat) : Nat :=
  (runValidLines protocol validString proxies net readN elapsedMs).length

/-- Capacity of the results channel, `make(chan string, len(proxies))`
(proxy_checker.go:234). -/
def resultsChanCapacity (proxies : List String) : Nat :=
  proxies.length

/-- State of the filesystem under the `results` directory: a map from file
name to the list of lines the file holds, `none` when the file is absent. -/
def FSState : Type :=
  String → Option (List String)

/-- The filesystem before any run: no result files exist. -/
def emptyFS : FSState :=
  fun _ => none

/-- Embedding of `saveValidProxy` (proxy_checker.go:168-178): open
`results/<protocol>.valid.txt` with `O_APPEND|O_CREATE|O_WRONLY` (creating an
empty file when absent, never truncating) and write the proxy plus a newline,
i.e. append one line. -/
def saveValidProxy (protocol proxy : String) (fs : FSState) : FSState :=
  fun f =>
    if f = "results/" ++ protocol ++ ".valid.txt" then
      some ((fs f).getD [] ++ [proxy])
    else fs f

/-- The address part of a channel message `"proxy|NNms"`: the piece before
the first bar, i.e. `strings.Split(proxyWithTime, "|")[0]`
(proxy_checker.go:182-183). -/
def msgAddr (proxyWithTime : String) : String :=
  ⟨proxyWithTime.data.takeWhile (fun c => c ≠ '|')⟩

/-- Embedding of `handleValidProxy` (proxy_checker.go:181-188): split the
channel message on the bar separator and save the address part. -/
def handleValidProxy (protocol proxyWithTime : String) (fs : FSState) : FSState :=
  saveValidProxy protocol (msgAddr proxyWithTime) fs

/-- Embedding of the consumer goroutine of `handleExit`
(proxy_checker.go:191-198): for each message received on the results channel
call `handleValidProxy` with the hard-coded protocol string `"socks5"`. -/
def handleExit (lines : List String) (fs : FSState) : FSState :=
  lines.foldl (fun acc line => handleValidProxy "socks5" line acc) fs

/-- The aggregation performed by `main` for a run whose configured protocol
is `protocol` (proxy_checker.go:238): `main` only calls
`handleExit(results, &validCount)`, which does not receive the configured
protocol at all. -/
def runAggregator (protocol : String) (lines : List String) (fs : FSState) : FSState :=
  handleExit lines fs

/-- Possible outcomes of the dispatch phase of `main`. -/
inductive RunOutcome
  | configError
  | panicked
  | deadlocked
  | completed (valid : Nat)
deriving DecidableEq

/-- Embedding of the dispatch phase of `main` (proxy_checker.go:240-254) as a
function of the resolved thread count.  `main` performs no validation of
`threads`: with a negative count, `make(chan struct{}, threads)` panics in the
Go runtime; with a zero count the semaphore is unbuffered and the first
`sem <- struct{}{}` in the dispatch loop blocks forever (no goroutine ever
receives on `sem` before being spawned), so a non-empty proxy list deadlocks;
otherwise every proxy is probed and the run completes. -/
def mainDispatch (threads : Int) (protocol validString : String)
    (proxies : List String) (net : String → Option String)
    (readN : String → Nat) (elapsedMs : String → Nat) : RunOutcome :=
  if threads < 0 then RunOutcome.panicked
  else if threads = 0 then
    if proxies.isEmpty then RunOutcome.completed 0
    else RunOutcome.deadlocked
  else RunOutcome.completed (runValidCount protocol validString proxies net readN elapsedMs)

/-- Interleaving state of two worker goroutines that both found their proxy
valid, together with the shared `validCount` cell and the number of verdicts
sent on the results channel.  Each worker runs the tail of `checkProxy`
(proxy_checker.go:161-164): send on the channel, then the unsynchronized
`*validCount++`, compiled as a load of the shared cell into a register
followed by a store of register + 1.  `pcN` is worker N's program counter
(0 = about to send, 1 = about to load, 2 = about to store, 3 = finished) and
`regN` its register. -/
structure RaceState where
  validCount : Nat
  chanSends : Nat
  pc1 : Nat
  reg1 : Nat
  pc2 : Nat
  reg2 : Nat

/-- One atomic step of worker 1 (`w = false`) or worker 2 (`w = true`). -/
def raceStep (s : RaceState) (w : Bool) : RaceState :=
  match w with
  | false =>
    match s.pc1 with
    | 0 => { s with chanSends := s.chanSends + 1, pc1 := 1 }
    | 1 => { s with reg1 := s.validCount, pc1 := 2 }
    | 2 => { s with validCount := s.reg1 + 1, pc1 := 3 }
    | _ => s
  | true =>
    match s.pc2 with
    | 0 => { s with chanSends := s.chanSends + 1, pc2 := 1 }
    | 1 => { s with reg2 := s.validCount, pc2 := 2 }
    | 2 => { s with validCount := s.reg2 + 1, pc2 := 3 }
    | _ => s

/-- Run the two workers under the given schedule, starting from the initial
state (counter 0, no sends, both workers at their send instruction). -/
def raceRun (sched : List Bool) : RaceState :=
  sched.foldl raceStep ⟨0, 0, 0, 0, 0, 0⟩

/-- State of the semaphore-bounded worker pool (proxy_checker.go:240-249):
`pending` proxies not yet admitted by `sem <- struct{}{}`; `inNet` probes
admitted and inside the network call; `netDone` probes whose network call
returned but whose result recording (the channel send in `checkProxy` and
`bar.Add(1)`) has not yet finished — these still hold their semaphore slot,
which is only released by the deferred `<-sem` afterwards; `finished` probes
whose slot has been released. -/
structure PoolState where
  pending : Nat
  inNet : Nat
  netDone : Nat
  finished : Nat

/-- Interleaving steps of the pool.  `acquire` models `sem <- struct{}{}`
followed by `go checkProxy(...)`: it requires a free slot, i.e. fewer than
`limit` slot-holders.  `netReturn` models the network call returning: the
slot is NOT released here.  `record` models the result being recorded and
the deferred `<-sem` releasing the slot afterwards. -/
inductive PoolStep (limit : Nat) : PoolState → PoolState → Prop
  | acquire (p i nd f : Nat) : i + nd < limit →
      PoolStep limit ⟨p + 1, i, nd, f⟩ ⟨p, i + 1, nd, f⟩
  | netReturn (p i nd f : Nat) :
      PoolStep limit ⟨p, i + 1, nd, f⟩ ⟨p, i, nd + 1, f⟩
  | record (p i nd f : Nat) :
      PoolStep limit ⟨p, i, nd + 1, f⟩ ⟨p, i, nd, f + 1⟩

/-- States of the pool reachable from the start of the dispatch loop over a
list of `n` proxies. -/
inductive PoolReach (limit n : Nat) : PoolState → Prop
  | init : PoolReach limit n ⟨n, 0, 0, 0⟩
  | step {s t : PoolState} : PoolReach limit n s → PoolStep limit s t →
      PoolReach limit n t

/-- State of the buffered results channel: `unsent` proxies that have not
yet decided whether to send; `buffered` verdicts sitting in the channel
buffer; `received` verdicts taken by the consumer. -/
structure ChanState where
  unsent : Nat
  buffered : Nat
  received : Nat

/-- Interleaving steps of the results channel: a proxy sends its verdict
(`send`), a proxy finishes without sending (`skip`, any failed probe), or
the consumer receives a verdict (`recv`). -/
inductive ChanStep : ChanState → ChanState → Prop
  | send (u b r : Nat) : ChanStep ⟨u + 1, b, r⟩ ⟨u, b + 1, r⟩
  | skip (u b r : Nat) : ChanStep ⟨u + 1, b, r⟩ ⟨u, b, r⟩
  | recv (u b r : Nat) : ChanStep ⟨u, b + 1, r⟩ ⟨u, b, r + 1⟩

/-- States of the results channel reachable in a run over `n` proxies. -/
inductive ChanReach (n : Nat) : ChanState → Prop
  | init : ChanReach n ⟨n, 0, 0⟩
  | step {s t : ChanState} : ChanReach n s → ChanStep s t → ChanReach n t

/-- C1: the claim requires that the final `validCount` equal the number of
verdicts placed on the result channel and that `validCount` be updated
atomically or only by the single aggregator; the code instead executes the
unsynchronized `*validCount++` in every worker goroutine
(proxy_checker.go:163).  Under the interleaving send₁, send₂, load₁, load₂,
store₁, store₂ of two workers that both found their proxy valid, both
workers finish, two verdicts are on the channel, yet `validCount` ends at 1:
one increment is lost, so the claimed equality and update discipline fail
on the code. -/
theorem c1_lost_update :
    (raceRun [false, true, false, true, false, true]).chanSends = 2
    ∧ (raceRun [false, true, false, true, false, true]).validCount = 1
    ∧ (raceRun [false, true, false, true, false, true]).pc1 = 3
    ∧ (raceRun [false, true, false, true, false, true]).pc2 = 3 := by
  decide

/-- C5: the claim requires a run with `concurrencyLimit ≤ 0` to fail fast
with a ConfigError before dispatch; the code performs no such check.  With
thread count 0 and a non-empty proxy list the dispatch deadlocks on the
first unbuffered semaphore send, and with a negative thread count
`make(chan struct{}, threads)` panics; neither outcome is a ConfigError. -/
theorem c5_no_config_error :
    mainDispatch 0 "https" "OK" ["1.2.3.4:8080"] (fun _ => none) (fun _ => 0) (fun _ => 0)
        = RunOutcome.deadlocked
    ∧ mainDispatch (-1) "https" "OK" ["1.2.3.4:8080"] (fun _ => none) (fun _ => 0) (fun _ => 0)
        = RunOutcome.panicked
    ∧ RunOutcome.deadlocked ≠ RunOutcome.configError
    ∧ RunOutcome.panicked ≠ RunOutcome.configError := by
  refine ⟨rfl, rfl, by decide, by decide⟩

/-- C6 counterexample: the loader `readProxies` of the variant
src/unnamed/part_000 (lines 84-100) does not deduplicate: a source containing
`1.2.3.4:8080` twice loads two ProxyAddress entries, not one, refuting the
claim that every loaded proxy set has set semantics. -/
theorem c6_readProxies_keeps_duplicates :
    readProxies "1.2.3.4:8080\n1.2.3.4:8080" = ["1.2.3.4:8080", "1.2.3.4:8080"]
    ∧ (readProxies "1.2.3.4:8080\n1.2.3.4:8080").length ≠ 1 := by
  refine ⟨rfl, by decide⟩

/-- C6 amended: in the proxy_checker.go variant, `extractProxies` yields a
duplicate-free list containing exactly the non-empty trimmed lines of the
content (splitting on line breaks, set semantics); in particular the source
containing `1.2.3.4:8080` twice yields exactly one entry.  The
src/unnamed/part_000 variant's `readProxies` keeps duplicates. -/
theorem c6_extractProxies_dedup (content : String) :
    (extractProxies content).Nodup
    ∧ (∀ s, s ∈ extractProxies content ↔
        (s ∈ (goSplitLines content).map goTrimSpace ∧ s ≠ ""))
    ∧ extractProxies "1.2.3.4:8080\n1.2.3.4:8080" = ["1.2.3.4:8080"] := by
  refine ⟨List.nodup_dedup _, ?_, by decide⟩
  intro s
  simp [extractProxies, List.mem_dedup, List.mem_filter]

/-- C6 amended, concrete instance: the duplicate source yields exactly one
loaded entry through `extractProxies`. -/
theorem c6_extractProxies_dedup_witness :
    extractProxies "1.2.3.4:8080\n1.2.3.4:8080" = ["1.2.3.4:8080"] :=
  (c6_extractProxies_dedup "").2.2

/-- C10: if the reply to the thread-count prompt does not scan as an integer
under `Sscanf "%d"`, the run proceeds with the configured default thread
count; if it does scan, the scanned integer is used as-is. -/
theorem c10_thread_prompt (reply : String) (d : Int) :
    (sscanfD reply = none → resolveThreads reply d = d)
    ∧ (∀ t, sscanfD reply = some t → resolveThreads reply d = t) := by
  constructor
  · intro h
    simp [resolveThreads, h]
  · intro t h
    simp [resolveThreads, h]

/-- C10 witness: the reply `abc` does not scan and falls back to the default
10; the reply `12abc` scans as 12 and is used as-is. -/
theorem c10_thread_prompt_witness :
    resolveThreads "abc" 10 = 10 ∧ resolveThreads "12abc" 10 = 12 :=
  ⟨(c10_thread_prompt "abc" 10).1 (by decide),
   (c10_thread_prompt "12abc" 10).2 12 (by decide)⟩

/-- C2: in every reachable state of the semaphore-bounded dispatch loop with
concurrency limit at least 1, the number of concurrently executing probes —
those inside the network call plus those whose result is not yet recorded,
i.e. all slot-holders, since the deferred `<-sem` releases a slot only after
the probe's result is recorded and not when the network call returns — never
exceeds the limit, for every proxy-list size `n`. -/
theorem c2_admission_bound (limit n : Nat) (s : PoolState) (hlim : 1 ≤ limit)
    (hreach : PoolReach limit n s) : s.inNet + s.netDone ≤ limit := by
  induction hreach with
  | init => simp
  | step _ hstep ih =>
    cases hstep with
    | acquire p i nd f h => simp at h ⊢; omega
    | netReturn p i nd f => simp at ih ⊢; omega
    | record p i nd f => simp at ih ⊢; omega

/-- C2 witness: with limit 2 and three proxies, the state after one
admission is reachable and holds the bound. -/
theorem c2_admission_bound_witness :
    (PoolState.mk 2 1 0 0).inNet + (PoolState.mk 2 1 0 0).netDone ≤ 2 :=
  c2_admission_bound 2 3 (PoolState.mk 2 1 0 0) (by decide)
    (PoolReach.step PoolReach.init (PoolStep.acquire 2 0 0 0 (by decide)))

/-- In every reachable state of the results channel for a run over `n`
proxies, the proxies that may still send, the buffered verdicts and the
received verdicts together never exceed the `n` proxies dispatched (skipped
proxies leave the total). -/
theorem chanReach_total (n : Nat) (s : ChanState) (h : ChanReach n s) :
    s.unsent + s.buffered + s.received ≤ n := by
  induction h with
  | init => simp
  | step _ hstep ih =>
    cases hstep with
    | send u b r => simp at ih ⊢; omega
    | skip u b r => simp at ih ⊢; omega
    | recv u b r => simp at ih ⊢; omega

/-- C8: the results channel is created with capacity equal to the number of
loaded addresses, each address sends at most once, and hence in every
reachable state the buffer occupancy is at most the capacity and any proxy
that still has its send ahead finds the buffer strictly below capacity — no
producer ever blocks on a full result channel. -/
theorem c8_capacity (proxies : List String) (s : ChanState)
    (h : ChanReach proxies.length s) :
    s.buffered ≤ resultsChanCapacity proxies
    ∧ (0 < s.unsent → s.buffered < resultsChanCapacity proxies) := by
  have htot := chanReach_total proxies.length s h
  unfold resultsChanCapacity
  omega

/-- C8 witness: at the start of a run over two addresses, the buffer is
within capacity and a pending producer finds room. -/
theorem c8_capacity_witness :
    (ChanState.mk 2 0 0).buffered ≤ resultsChanCapacity ["1.2.3.4:8080", "5.6.7.8:80"]
    ∧ (0 < (ChanState.mk 2 0 0).unsent →
        (ChanState.mk 2 0 0).buffered < resultsChanCapacity ["1.2.3.4:8080", "5.6.7.8:80"]) :=
  c8_capacity ["1.2.3.4:8080", "5.6.7.8:80"] (ChanState.mk 2 0 0) ChanReach.init

/-- The Boolean `goContains` agrees with the infix relation on the
underlying byte lists. -/
theorem goContains_iff (s sub : String) :
    goContains s sub = true ↔ sub.data <:+: s.data := by
  unfold goContains
  rw [List.any_eq_true, List.infix_iff_prefix_suffix]
  constructor
  · rintro ⟨t, ht, hp⟩
    exact ⟨t, List.isPrefixOf_iff_prefix.mp hp, (List.mem_tails _ _).mp ht⟩
  · rintro ⟨t, hp, hs⟩
    exact ⟨t, (List.mem_tails _ _).mpr hs, List.isPrefixOf_iff_prefix.mpr hp⟩

/-- A substring of a prefix is a substring of the whole. -/
theorem goContains_mono (s t sub : String) (h : s.data <+: t.data)
    (hc : goContains s sub = true) : goContains t sub = true := by
  rw [goContains_iff] at hc ⊢
  exact hc.trans h.isInfix

/-- C3 counterexample: the claim as stated is false on the code.  The body
`xxOK` contains the marker `OK` within its first 1024 bytes, the proxy URL
parses, yet when the single `resp.Body.Read` call returns only 3 bytes — a
short read the `io.Reader` contract allows (3 ≤ min 1024 4) — the scanned
chunk is `xxO` and the verdict is invalid: no message is sent. -/
theorem c3_short_read_invalid :
    goURLParseOk "https://10.0.0.1:80" = true
    ∧ goContains (take1024 "xxOK") "OK" = true
    ∧ (3 ≤ min 1024 (String.length "xxOK") ∧ readChunk "xxOK" 3 = "xxO")
    ∧ checkProxy "https" "10.0.0.1:80" "OK" (some "xxOK") 3 7 = none := by
  refine ⟨by decide, by decide, ⟨by decide, by decide⟩, by decide⟩

/-- C3 amended: for a probe whose proxy URL parses and that receives a
response, the verdict is valid — a message is sent — exactly when the marker
string is a substring of the bytes returned by the single body read, which
are a prefix of the at-most-1024-byte prefix of the response body; hence a
valid verdict implies the marker occurs within the first 1024 bytes, and the
original iff is restored whenever the read returns the whole available
prefix; every valid verdict records the measured latency `elapsedMs`, a
natural number and hence at least 0.  A short read may miss a marker that
lies within the first 1024 bytes (see the counterexample). -/
theorem c3_verdict_chunk (protocol proxy validString body : String)
    (readN elapsedMs : Nat)
    (h : goURLParseOk (protocol ++ "://" ++ proxy) = true) :
    ((checkProxy protocol proxy validString (some body) readN elapsedMs).isSome
        = goContains (readChunk body readN) validString)
    ∧ (readChunk body readN).data <+: (take1024 body).data
    ∧ ((checkProxy protocol proxy validString (some body) readN elapsedMs).isSome = true →
        goContains (take1024 body) validString = true)
    ∧ (body.length ≤ readN →
        ((checkProxy protocol proxy validString (some body) readN elapsedMs).isSome
          = goContains (take1024 body) validString))
    ∧ (goContains (readChunk body readN) validString = true →
        checkProxy protocol proxy validString (some body) readN elapsedMs
          = some (proxy ++ "|" ++ toString elapsedMs ++ "ms")) := by
  have hiff : (checkProxy protocol proxy validString (some body) readN elapsedMs).isSome
      = goContains (readChunk body readN) validString := by
    cases hc : goContains (readChunk body readN) validString <;>
      simp [checkProxy, h, hc]
  have hpre : (readChunk body readN).data <+: (take1024 body).data := by
    unfold readChunk take1024
    have htt : (body.data.take 1024).take (min readN 1024) = body.data.take (min readN 1024) := by
      rw [List.take_take]
      congr 1
      omega
    rw [← htt]
    exact List.take_prefix (min readN 1024) (body.data.take 1024)
  refine ⟨hiff, hpre, ?_, ?_, ?_⟩
  · intro hv
    rw [hiff] at hv
    exact goContains_mono (readChunk body readN) (take1024 body) validString hpre hv
  · intro hfull
    have hchunk : readChunk body readN = take1024 body := by
      unfold readChunk take1024
      rcases le_or_lt 1024 readN with hge | hlt
      · have : min readN 1024 = 1024 := by omega
        rw [this]
      · have hmin : min readN 1024 = readN := by omega
        have h1 : body.data.take readN = body.data :=
          List.take_of_length_le (by simpa using hfull)
        have h2 : body.data.take 1024 = body.data :=
          List.take_of_length_le (by simpa using hfull.trans (Nat.le_of_lt hlt))
        rw [hmin, h1, h2]
    rw [hiff, hchunk]
  · intro hc
    simp [checkProxy, h, hc]

/-- C3 amended witness: probing `10.0.0.1:80` over https with marker `OK`, a
response `xxOKyy` and a full read of the buffer yields a valid verdict
recording the latency 7ms. -/
theorem c3_verdict_chunk_witness :
    goURLParseOk ("https" ++ "://" ++ "10.0.0.1:80") = true
    ∧ checkProxy "https" "10.0.0.1:80" "OK" (some "xxOKyy") 1024 7
        = some ("10.0.0.1:80" ++ "|" ++ toString 7 ++ "ms") :=
  ⟨by decide,
   (c3_verdict_chunk "https" "10.0.0.1:80" "OK" "xxOKyy" 1024 7 (by decide)).2.2.2.2
     (by decide)⟩

/-- C4: `checkProxy` is a total function that never raises: a proxy whose
URL does not parse yields no send (invalid verdict, `validCount` untouched),
any transport failure (`resp = none`: connection refused, timeout, TLS or
DNS failure) yields no send, the address `bad::addr` over https in
particular yields no send for every network behaviour, and removing it from
a batch does not change the verdicts of the other addresses — each proxy is
evaluated independently. -/
theorem c4_fail_silently (validString : String) (net : String → Option String)
    (readN : String → Nat) (elapsedMs : String → Nat) :
    (∀ protocol proxy rn e resp, goURLParseOk (protocol ++ "://" ++ proxy) = false →
        checkProxy protocol proxy validString resp rn e = none)
    ∧ (∀ protocol proxy rn e, checkProxy protocol proxy validString none rn e = none)
    ∧ checkProxy "https" "bad::addr" validString (net "bad::addr") (readN "bad::addr")
        (elapsedMs "bad::addr") = none
    ∧ runValidLines "https" validString ["10.0.0.1:80", "bad::addr"] net readN elapsedMs
        = runValidLines "https" validString ["10.0.0.1:80"] net readN elapsedMs
    ∧ runValidCount "https" validString ["10.0.0.1:80", "bad::addr"] net readN elapsedMs
        = runValidCount "https" validString ["10.0.0.1:80"] net readN elapsedMs := by
  have hbad : goURLParseOk "https://bad::addr" = false := by decide
  have hb : checkProxy "https" "bad::addr" validString (net "bad::addr")
      (readN "bad::addr") (elapsedMs "bad::addr") = none := by
    simp [checkProxy, hbad]
  have hrun : runValidLines "https" validString ["10.0.0.1:80", "bad::addr"] net readN elapsedMs
      = runValidLines "https" validString ["10.0.0.1:80"] net readN elapsedMs := by
    simp [runValidLines, List.filterMap_cons, hb]
  refine ⟨?_, ?_, hb, hrun, ?_⟩
  · intro protocol proxy rn e resp h
    simp [checkProxy, h]
  · intro protocol proxy rn e
    cases hu : goURLParseOk (protocol ++ "://" ++ proxy) <;> simp [checkProxy, hu]
  · simp [runValidCount, hrun]

/-- C4 witness: `https://bad::addr` fails URL parsing and the probe of
`bad::addr` sends nothing. -/
theorem c4_fail_silently_witness :
    goURLParseOk ("https" ++ "://" ++ "bad::addr") = false
    ∧ checkProxy "https" "bad::addr" "OK" (some "OK") 1024 3 = none :=
  ⟨by decide,
   (c4_fail_silently "OK" (fun _ => some "OK") (fun _ => 1024) (fun _ => 3)).1
     "https" "bad::addr" 1024 3 (some "OK") (by decide)⟩

/-- C9: a source whose content has no non-empty line (every line trims to
the empty string) loads, without error, as the empty proxy list, and the run
over that list probes zero items and reports zero valid proxies. -/
theorem c9_empty_source (content protocol validString : String)
    (net : String → Option String) (readN : String → Nat) (elapsedMs : String → Nat)
    (h : ∀ l ∈ goSplitLines content, goTrimSpace l = "") :
    extractProxies content = []
    ∧ runValidCount protocol validString (extractProxies content) net readN elapsedMs = 0 := by
  have hfil : ((goSplitLines content).map goTrimSpace).filter (fun l => l ≠ "") = [] := by
    rw [List.filter_eq_nil_iff]
    intro a ha
    simp only [List.mem_map] at ha
    obtain ⟨l, hl, rfl⟩ := ha
    simp [h l hl]
  have h1 : extractProxies content = [] := by
    unfold extractProxies
    rw [hfil, List.dedup_nil]
  exact ⟨h1, by simp [h1, runValidCount, runValidLines]⟩

/-- C9 witness: a content of blank lines only loads as the empty list and
the run reports zero valid proxies. -/
theorem c9_empty_source_witness :
    extractProxies "\n \n\t" = []
    ∧ runValidCount "https" "OK" (extractProxies "\n \n\t") (fun _ => some "OK")
        (fun _ => 1024) (fun _ => 0) = 0 :=
  c9_empty_source "\n \n\t" "https" "OK" (fun _ => some "OK") (fun _ => 1024)
    (fun _ => 0) (by decide)

/-- The name of the file all valid proxies are saved to by the consumer in
proxy_checker.go, spelled as `saveValidProxy` builds it. -/
theorem socks5_file_eq : "results/" ++ "socks5" ++ ".valid.txt" = "results/socks5.valid.txt" :=
  rfl

/-- Unfolding of the consumer over one received message. -/
theorem handleExit_cons (l : String) (ls : List String) (fs : FSState) :
    handleExit (l :: ls) fs = handleExit ls (handleValidProxy "socks5" l fs) :=
  rfl

/-- The consumer of `handleExit` touches no file other than
`results/socks5.valid.txt`. -/
theorem handleExit_other (lines : List String) (fs : FSState) (f : String)
    (h : f ≠ "results/socks5.valid.txt") : handleExit lines fs f = fs f := by
  induction lines generalizing fs with
  | nil => rfl
  | cons l ls ih =>
    rw [handleExit_cons, ih]
    simp [handleValidProxy, saveValidProxy, socks5_file_eq, h]

/-- After the consumer of `handleExit` processes a non-empty batch of
messages, `results/socks5.valid.txt` holds its previous lines (empty when the
file was absent) followed by the address part of each message, in arrival
order. -/
theorem handleExit_socks5 (lines : List String) (fs : FSState) (h : lines ≠ []) :
    handleExit lines fs "results/socks5.valid.txt"
      = some ((fs "results/socks5.valid.txt").getD [] ++ lines.map msgAddr) := by
  induction lines generalizing fs with
  | nil => cases h rfl
  | cons l ls ih =>
    rw [handleExit_cons]
    have hstep : handleValidProxy "socks5" l fs "results/socks5.valid.txt"
        = some ((fs "results/socks5.valid.txt").getD [] ++ [msgAddr l]) := by
      simp [handleValidProxy, saveValidProxy, socks5_file_eq]
    cases ls with
    | nil =>
      show handleValidProxy "socks5" l fs "results/socks5.valid.txt" = _
      rw [hstep]
      simp
    | cons l2 ls2 =>
      rw [ih (handleValidProxy "socks5" l fs) (by simp), hstep]
      simp

/-- C7 counterexample: with configured protocol `https`, a run that finds
`1.2.3.4:8080` valid writes it to `results/socks5.valid.txt` and creates no
`results/https.valid.txt` — the consumer `handleExit` hard-codes the
protocol `"socks5"` (proxy_checker.go:194), so the result file is not keyed
by the configured protocol. -/
theorem c7_not_protocol_keyed :
    runAggregator "https" ["1.2.3.4:8080|50ms"] emptyFS "results/https.valid.txt" = none
    ∧ runAggregator "https" ["1.2.3.4:8080|50ms"] emptyFS "results/socks5.valid.txt"
        = some ["1.2.3.4:8080"] := by
  constructor <;> decide

/-- C7 amended: every valid proxy address is appended, one per line as it
arrives, to `results/socks5.valid.txt` regardless of the configured protocol
(the consumer hard-codes `"socks5"`); no other file is touched, and a re-run
over the same input appends to the existing file without overwriting or
truncating its prior contents. -/
theorem c7_socks5_append (lines : List String) (fs : FSState) :
    (∀ f, f ≠ "results/socks5.valid.txt" → handleExit lines fs f = fs f)
    ∧ (lines ≠ [] →
        handleExit lines fs "results/socks5.valid.txt"
          = some ((fs "results/socks5.valid.txt").getD [] ++ lines.map msgAddr))
    ∧ (lines ≠ [] →
        handleExit lines (handleExit lines fs) "results/socks5.valid.txt"
          = some ((fs "results/socks5.valid.txt").getD []
              ++ lines.map msgAddr ++ lines.map msgAddr)) := by
  refine ⟨fun f hf => handleExit_other lines fs f hf, fun h => handleExit_socks5 lines fs h, ?_⟩
  intro h
  rw [handleExit_socks5 lines (handleExit lines fs) h, handleExit_socks5 lines fs h]
  simp

/-- C7 amended witness: one valid proxy leaves `results/https.valid.txt`
untouched and appends the address to `results/socks5.valid.txt`. -/
theorem c7_socks5_append_witness :
    handleExit ["1.2.3.4:8080|50ms"] emptyFS "results/https.valid.txt"
        = emptyFS "results/https.valid.txt"
    ∧ handleExit ["1.2.3.4:8080|50ms"] emptyFS "results/socks5.valid.txt"
        = some ((emptyFS "results/socks5.valid.txt").getD []
            ++ ["1.2.3.4:8080|50ms"].map msgAddr) :=
  ⟨(c7_socks5_append ["1.2.3.4:8080|50ms"] emptyFS).1 "results/https.valid.txt" (by decide),
   (c7_socks5_append ["1.2.3.4:8080|50ms"] emptyFS).2.1 (by decide)⟩

end ProxyChecker
